import Mathlib

/-!
Verification of `preference_datasets.py` (direct-preference-optimization).

We give a shallow embedding of the data-preparation pipeline: the canonical
adapters (`get_se`, `get_shp`, `get_hh`, the OASST thread extractor
`fill_threads`), the schema check in `get_dataset`, the example tokenizer
`tokenize_batch_element`, the collator `collate_fn`, and the batch iteration
engine `get_batch_iterator`.  Python dicts become association lists (insertion
order preserved), Python slices become explicit list operations with Python's
clamping/negative-index semantics, the external tokenizer and the random
number generator become function parameters, and the generator's `while True`
loop becomes fuel-indexed recursion.
-/

namespace PrefDatasets

/-! ### Generic string / list helpers (Python `in`, `endswith`, slicing) -/

/-- `charsBeginWith pat s`: `pat` is an initial segment of `s`. -/
def charsBeginWith : List Char → List Char → Bool
  | [], _ => true
  | _ :: _, [] => false
  | a :: as, b :: bs => a == b && charsBeginWith as bs

/-- `charsContain pat s`: `pat` occurs contiguously somewhere in `s`. -/
def charsContain (pat : List Char) : List Char → Bool
  | [] => charsBeginWith pat []
  | c :: rest => charsBeginWith pat (c :: rest) || charsContain pat rest

/-- Python `pat in s` on strings. -/
def strContains (s pat : String) : Bool := charsContain pat.toList s.toList

/-- Python `s.endswith(pat)`. -/
def strEndsWith (s pat : String) : Bool :=
  charsBeginWith pat.toList.reverse s.toList.reverse

/-- Python slice `v[:n]` where `n` may be negative (counts from the end,
clamping at an empty result). -/
def pyTakeTo (v : List α) (n : Int) : List α :=
  if 0 ≤ n then v.take n.toNat else v.take ((v.length : Int) + n).toNat

/-- Python slice `v[-m:]` for a nonnegative `m`.  Beware: in Python `v[-0:]`
is the whole list, not the empty list. -/
def pyTakeLast (v : List α) (m : Nat) : List α :=
  if m = 0 then v else v.drop (v.length - m)

/-- Python `list.index(x)`: index of the first occurrence (`0` fallback for a
missing element, which the sources never hit). -/
def pyIndex [BEq α] (l : List α) (x : α) : Nat :=
  match l with
  | [] => 0
  | a :: rest => if a == x then 0 else pyIndex rest x + 1

/-- Python `max(l, key=key)` with default `dflt` for the empty list (Python
raises there; the sources only call it on nonempty lists).  Ties keep the
first occurrence, as in Python. -/
def pyMaxByD (l : List α) (key : α → ℚ) (dflt : α) : α :=
  match l with
  | [] => dflt
  | h :: t => t.foldl (fun best x => if key x > key best then x else best) h

/-! ### Python dicts as association lists (insertion order preserved) -/

/-- `d[k] = v` on a Python dict: replace in place when the key exists,
append otherwise. -/
def dictSet [BEq κ] (m : List (κ × α)) (k : κ) (v : α) : List (κ × α) :=
  match m with
  | [] => [(k, v)]
  | (k', v') :: rest =>
      if k' == k then (k, v) :: rest else (k', v') :: dictSet rest k v

/-- `del d[k]` on a Python dict. -/
def dictDel [BEq κ] (m : List (κ × α)) (k : κ) : List (κ × α) :=
  match m with
  | [] => []
  | (k', v') :: rest => if k' == k then rest else (k', v') :: dictDel rest k

/-- Dict lookup (`d[k]` / `d.get(k)`). -/
def dictGet [BEq κ] (m : List (κ × α)) (k : κ) : Option α := m.lookup k

/-- `d.keys()` in insertion order. -/
def dictKeys (m : List (κ × α)) : List κ := m.map Prod.fst

/-! ### The canonical thread representation

A thread is the inner Python dict of `get_hh`'s documented format: string
keys to heterogeneous values.  `PyVal` covers every value type the adapters
store. -/

inductive PyVal where
  | vStr : String → PyVal
  | vStrList : List String → PyVal
  | vPairs : List (Nat × Nat) → PyVal
  | vScores : List ℚ → PyVal
  deriving DecidableEq, Repr

/-- One thread: the inner dict (`responses` / `pairs` / `sft_target` …). -/
abbrev PyThread := List (String × PyVal)

/-- One dataset: the outer dict, prompt string to thread. -/
abbrev PyData := List (String × PyThread)

/-- The `responses` field of a thread (`[]` when absent or ill-typed). -/
def threadResponses (t : PyThread) : List String :=
  match dictGet t "responses" with
  | some (.vStrList l) => l
  | _ => []

/-- The `pairs` field of a thread (`[]` when absent or ill-typed). -/
def threadPairs (t : PyThread) : List (Nat × Nat) :=
  match dictGet t "pairs" with
  | some (.vPairs l) => l
  | _ => []

/-- The `sft_target` field of a thread (`""` when absent or ill-typed). -/
def threadSft (t : PyThread) : String :=
  match dictGet t "sft_target" with
  | some (.vStr s) => s
  | _ => ""

/-- Python set equality `set(ks) == {'responses', 'pairs', 'sft_target'}`. -/
def keysAreCanonical (ks : List String) : Bool :=
  ks.all (fun k => k == "responses" || k == "pairs" || k == "sft_target") &&
    ["responses", "pairs", "sft_target"].all (fun k => ks.contains k)

/-! ### `get_dataset` (lines 317-333): dispatch plus the schema assertion -/

inductive DsError where
  /-- Python `ValueError(f"Unknown dataset '{name}'")`. -/
  | unknownDataset : DsError
  /-- Python `IndexError` from `list(data.values())[0]` on an empty dict. -/
  | indexError : DsError
  /-- The `assert set(...) == {'responses','pairs','sft_target'}` failing. -/
  | schemaAssert : DsError
  deriving DecidableEq, Repr

/-- Lines 330-333: `assert set(list(data.values())[0].keys()) == {...}`
followed by `return data`.  Indexing `[0]` on an empty dict raises
`IndexError`; otherwise only the first thread's key set is compared. -/
def get_dataset_validate (data : PyData) : Except DsError PyData :=
  match data with
  | [] => .error .indexError
  | (_, t) :: _ =>
      if keysAreCanonical (dictKeys t) then .ok data else .error .schemaAssert

/-- Lines 317-333.  The adapter outputs (which depend on externally loaded
corpora) are passed in as parameters; the name dispatch and the final schema
assertion are the code under verification. -/
def get_dataset (name : String)
    (shpData hhData seData oaData : PyData) : Except DsError PyData := do
  let data ←
    if name == "shp" then .ok shpData
    else if name == "hh" then .ok hhData
    else if name == "se" then .ok seData
    else if name == "oa" then .ok oaData
    else .error .unknownDataset
  get_dataset_validate data

/-- The `scores` field of a thread (`[]` when absent; SHP only, deleted
before the adapter returns). -/
def threadScores (t : PyThread) : List ℚ :=
  match dictGet t "scores" with
  | some (.vScores l) => l
  | _ => []

/-! ### `get_se` (lines 46-83) -/

/-- Pair construction shared by `get_se` (lines 74-77) and `fill_threads`
(lines 276-277): for every `i < j`, `(i,j)` when `score[i] > score[j]`,
else `(j,i)`. -/
def rankedPairs (scores : List Int) : List (Nat × Nat) :=
  (List.range scores.length).flatMap (fun i =>
    (List.range' (i + 1) (scores.length - (i + 1))).map (fun j =>
      if scores.getD i 0 > scores.getD j 0 then (i, j) else (j, i)))

/-- One StackExchange answer after HTML stripping (external). -/
structure SEAnswer where
  text : String
  pm_score : Int
  deriving DecidableEq, Repr

/-- One StackExchange row after HTML stripping (external). -/
structure SERow where
  question : String
  answers : List SEAnswer
  deriving DecidableEq, Repr

/-- Lines 68-83 of `get_se`: the per-row accumulation into `data` (loading,
shuffling and HTML stripping of the raw corpus are external).  Note that the
three assignments overwrite any thread previously stored under the same
prompt. -/
def get_se (rows : List SERow) : PyData :=
  rows.foldl (fun data row =>
    let prompt := "\n\nHuman: " ++ row.question ++ "\n\nAssistant:"
    let responses := row.answers.map (fun a => " " ++ a.text)
    let scores := row.answers.map (fun a => a.pm_score)
    let pairs := rankedPairs scores
    let inner := (dictGet data prompt).getD []
    let inner := dictSet inner "responses" (.vStrList responses)
    let inner := dictSet inner "pairs" (.vPairs pairs)
    let inner := dictSet inner "sft_target"
      (.vStr (pyMaxByD responses
        (fun x => (scores.getD (pyIndex responses x) 0 : ℚ)) ""))
    dictSet data prompt inner) []

/-! ### `get_shp` (lines 85-117) -/

/-- One Stanford Human Preferences row.  The integer scores are carried as
rationals because the filter divides them (Python true division). -/
structure SHPRow where
  history : String
  human_ref_A : String
  human_ref_B : String
  score_A : ℚ
  score_B : ℚ
  labels : Int
  deriving DecidableEq, Repr

/-- Lines 95-117 of `get_shp`: per-row accumulation, then the final pass
adding `sft_target` and deleting `scores`.  (Python divides by zero on a
zero score and aborts; rational division by zero yields `0` here, i.e. such
a row is skipped by the ratio filter.) -/
def get_shp (rows : List SHPRow) : PyData :=
  let data := rows.foldl (fun data row =>
    let prompt := "\n\nHuman: " ++ row.history ++ "\n\nAssistant:"
    let responses := [" " ++ row.human_ref_A, " " ++ row.human_ref_B]
    let scores := [row.score_A, row.score_B]
    let n_responses :=
      if (dictGet data prompt).isSome then
        (threadResponses ((dictGet data prompt).getD [])).length
      else 0
    let score_ratio := max (row.score_A / row.score_B) (row.score_B / row.score_A)
    if score_ratio < 2 then data
    else
      let inner := (dictGet data prompt).getD []
      let pair :=
        if row.labels == 1 then (n_responses, n_responses + 1)
        else (n_responses + 1, n_responses)
      let inner := dictSet inner "pairs" (.vPairs (threadPairs inner ++ [pair]))
      let inner := dictSet inner "responses"
        (.vStrList (threadResponses inner ++ responses))
      let inner := dictSet inner "scores" (.vScores (threadScores inner ++ scores))
      dictSet data prompt inner) []
  data.map (fun pt =>
    let inner := pt.2
    let resp := threadResponses inner
    let scs := threadScores inner
    let inner := dictSet inner "sft_target"
      (.vStr (pyMaxByD resp (fun x => scs.getD (pyIndex resp x) 0) ""))
    (pt.1, dictDel inner "scores"))

/-! ### `get_hh` (lines 14-19 and 120-160) -/

/-- All indices at which `pat` begins in `s`. -/
def strOccurrences (s pat : String) : List Nat :=
  (List.range (s.toList.length + 1)).filter
    (fun i => charsBeginWith pat.toList (s.toList.drop i))

/-- Python `s.rfind(pat)` (as an `Option` instead of `-1`). -/
def pyRFind (s pat : String) : Option Nat := (strOccurrences s pat).getLast?

/-- First `n` characters of `s`. -/
def strTakeChars (s : String) (n : Nat) : String := ⟨s.toList.take n⟩

/-- Characters of `s` from position `n` on (Python `s[n:]`). -/
def strDropChars (s : String) (n : Nat) : String := ⟨s.toList.drop n⟩

/-- Lines 14-19: keep everything up to and including the last
`"\n\nAssistant:"`; the assert becomes `none`. -/
def extract_anthropic_prompt (prompt_and_response : String) : Option String :=
  match pyRFind prompt_and_response "\n\nAssistant:" with
  | none => none
  | some idx =>
      some (strTakeChars prompt_and_response
        (idx + ("\n\nAssistant:".toList.length)))

/-- One Anthropic HH row. -/
structure HHRow where
  chosen : String
  rejected : String
  deriving DecidableEq, Repr

/-- Lines 145-149. -/
def split_prompt_and_responses (row : HHRow) : Option (String × String × String) :=
  (extract_anthropic_prompt row.chosen).map (fun prompt =>
    (prompt, strDropChars row.chosen prompt.toList.length,
     strDropChars row.rejected prompt.toList.length))

/-- Lines 151-160 of `get_hh`: per-row accumulation (corpus loading is
external); `none` when some row fails `extract_anthropic_prompt`'s assert. -/
def get_hh (rows : List HHRow) : Option PyData :=
  rows.foldlM (fun data row => do
    let (prompt, chosen, rejected) ← split_prompt_and_responses row
    let responses := [chosen, rejected]
    let inner := (dictGet data prompt).getD []
    let n_responses := (threadResponses inner).length
    let inner := dictSet inner "pairs"
      (.vPairs (threadPairs inner ++ [(n_responses, n_responses + 1)]))
    let inner := dictSet inner "responses"
      (.vStrList (threadResponses inner ++ responses))
    let inner := dictSet inner "sft_target" (.vStr chosen)
    pure (dictSet data prompt inner)) []

/-! ### `get_oa` (lines 162-314): the conversation-tree thread extractor -/

inductive Role where
  | prompter
  | assistant
  deriving DecidableEq, Repr

/-- One conversation-tree node (a row of the flat dump together with the
`replies` list built by `get_conversations_for_node`).  Only the fields
`fill_threads` reads are carried. -/
inductive OANode where
  | mk (role : Role) (text : String) (deleted : Bool) (review_result : Bool)
      (rank : Option Int) (replies : List OANode)

def OANode.role : OANode → Role
  | .mk r _ _ _ _ _ => r

def OANode.text : OANode → String
  | .mk _ t _ _ _ _ => t

def OANode.deleted : OANode → Bool
  | .mk _ _ d _ _ _ => d

def OANode.review_result : OANode → Bool
  | .mk _ _ _ rv _ _ => rv

def OANode.rank : OANode → Option Int
  | .mk _ _ _ _ rk _ => rk

def OANode.replies : OANode → List OANode
  | .mk _ _ _ _ _ rep => rep

def OANode.withDeleted : OANode → Bool → OANode
  | .mk r t _ rv rk rep, d => .mk r t d rv rk rep

def OANode.withRank : OANode → Option Int → OANode
  | .mk r t d rv _ rep, rk => .mk r t d rv rk rep

def OANode.withReplies : OANode → List OANode → OANode
  | .mk r t d rv rk _, rep => .mk r t d rv rk rep

/-- Lines 204-211: a node is terminal when it has no replies or every reply
is marked deleted. -/
def has_no_reply_nodes (row_node : OANode) : Bool :=
  row_node.replies.length == 0 || row_node.replies.all (fun r => r.deleted)

/-- Lines 213-215: builds a prompt string and then returns the empty
string. -/
def get_low_quality_response (_conversation_so_far : String) : String := ""

/-- Lines 233-242: mark a reply-of-a-reply deleted when none of its own
replies is both non-deleted and reviewed. -/
def cleanup_prompter_replies (replies : List OANode) : List OANode :=
  replies.map (fun asst_reply_node =>
    asst_reply_node.withReplies (asst_reply_node.replies.map
      (fun prmptr_reply_node =>
        if prmptr_reply_node.replies.any
            (fun a => !a.deleted && a.review_result) then prmptr_reply_node
        else prmptr_reply_node.withDeleted true)))

/-- Lines 245-247: a `null` rank becomes rank `0`. -/
def normalize_null_ranks (replies : List OANode) : List OANode :=
  replies.map (fun r => if r.rank.isNone then r.withRank (some 0) else r)

/-- Lines 250-255: some direct reply is reviewed and terminal. -/
def replies_has_ending (replies : List OANode) : Bool :=
  replies.any (fun r => r.review_result && has_no_reply_nodes r)

/-- The rank read after normalization (always `some` there; `getD 0`
coincides with the normalized value). -/
def oaRank (n : OANode) : Int := n.rank.getD 0

/-- Lines 259-284: the thread emitted at a human branch point: every direct
reply's text as a response, `rankedPairs` over the ranks, the best-ranked
reply (first strict maximum, starting from rank `-1`) as `sft_target`, and
for a single reply a synthesized empty filler response with pair `(0,1)`. -/
def emit_thread (conversation_extended : String) (replies : List OANode) :
    PyThread :=
  let responses := replies.map OANode.text
  let pairs := rankedPairs (replies.map oaRank)
  let best := (replies.foldl
    (fun (acc : Int × String) r =>
      if oaRank r > acc.1 then (oaRank r, r.text) else acc) (-1, "")).2
  let responses :=
    if replies.length == 1 then
      responses ++ [get_low_quality_response conversation_extended]
    else responses
  let pairs := if replies.length == 1 then pairs ++ [(0, 1)] else pairs
  [("responses", .vStrList responses), ("pairs", .vPairs pairs),
   ("sft_target", .vStr best)]

/-- Lines 217-295, as fuel-indexed recursion (the fuel only needs to exceed
the tree height; `0` returns the accumulator unchanged). -/
def fill_threads (fuel : Nat) (row_node : OANode) (threads : PyData)
    (conversation : String) : PyData :=
  match fuel with
  | 0 => threads
  | fuel + 1 =>
    let role := match row_node.role with
      | .prompter => "Human"
      | .assistant => "Assistant"
    let row_message := role ++ ": " ++ row_node.text
    let separator := if conversation != "" then "\n\n" else ""
    let conversation_extended := conversation ++ separator ++ row_message
    if !(has_no_reply_nodes row_node) then
      match row_node.role with
      | .assistant =>
          row_node.replies.foldl
            (fun acc reply => fill_threads fuel reply acc conversation_extended)
            threads
      | .prompter =>
          let replies :=
            normalize_null_ranks (cleanup_prompter_replies row_node.replies)
          let threads :=
            if replies_has_ending replies then
              dictSet threads (conversation_extended ++ "\n\nAssistant: ")
                (emit_thread conversation_extended replies)
            else threads
          replies.foldl (fun acc reply =>
            if !(has_no_reply_nodes reply) && reply.review_result then
              fill_threads fuel reply acc conversation_extended
            else acc) threads
    else threads

/-- Lines 309-312: extract threads from every top-level conversation under
the synthetic root (tree construction from the flat dump is
`get_conversations_for_node`, whose output is the `roots` forest here). -/
def get_oa (fuel : Nat) (roots : List OANode) : PyData :=
  roots.foldl (fun acc root_thread => fill_threads fuel root_thread acc "") []

/-! ### `tokenize_batch_element` (lines 370-433) -/

/-- What the external tokenizer returns for one string (no special tokens
added): parallel input-id and attention-mask sequences. -/
structure TokOut where
  input_ids : List Int
  attention_mask : List Int
  deriving DecidableEq, Repr

/-- Python dict comprehension `{k: f(v) for k, v in tokens.items()}` over the
two sequences. -/
def tokOutMap (f : List Int → List Int) (t : TokOut) : TokOut :=
  ⟨f t.input_ids, f t.attention_mask⟩

inductive TruncMode where
  | keep_start
  | keep_end
  deriving DecidableEq, Repr

/-- A value of the per-example dict `tokenize_batch_element` builds: a token
sequence or a raw string. -/
inductive FieldVal where
  | ints : List Int → FieldVal
  | str : String → FieldVal
  deriving DecidableEq, Repr

/-- One tokenized example: the association list `batch` of lines 419-431,
in insertion order. -/
abbrev BatchElement := List (String × FieldVal)

/-- Lines 395-409: the two-step truncation.  If the combined sequence is
too long, truncate the prompt to `max_prompt_length` (keeping its start or
end per `truncation_mode`); if still too long, truncate both responses to
`max_length - max_prompt_length` keeping the start.  Slices keep Python
semantics: `v[-max_prompt_length:]` is the whole list when
`max_prompt_length = 0`, and `max_length - max_prompt_length` may be
negative.  `longer_response_length` is computed once, before the prompt is
truncated, exactly as in the source. -/
def truncate_tokens (truncation_mode : TruncMode)
    (max_length max_prompt_length : Nat)
    (prompt_tokens chosen_tokens rejected_tokens : TokOut) :
    TokOut × TokOut × TokOut :=
  let longer_response_length :=
    max chosen_tokens.input_ids.length rejected_tokens.input_ids.length
  let prompt_tokens :=
    if prompt_tokens.input_ids.length + longer_response_length > max_length
    then
      match truncation_mode with
      | .keep_start => tokOutMap (fun v => v.take max_prompt_length) prompt_tokens
      | .keep_end => tokOutMap (fun v => pyTakeLast v max_prompt_length) prompt_tokens
    else prompt_tokens
  if prompt_tokens.input_ids.length + longer_response_length > max_length
  then
    (prompt_tokens,
     tokOutMap
       (fun v => pyTakeTo v ((max_length : Int) - (max_prompt_length : Int)))
       chosen_tokens,
     tokOutMap
       (fun v => pyTakeTo v ((max_length : Int) - (max_prompt_length : Int)))
       rejected_tokens)
  else (prompt_tokens, chosen_tokens, rejected_tokens)

/-- Lines 411-431: build the per-side full sequences, overwrite the label
positions under the prompt with the `-100` sentinel, and assemble the
`batch` dict in insertion order. -/
def assemble_batch (prompt chosen rejected : String)
    (prompt_tokens chosen_tokens rejected_tokens : TokOut) : BatchElement :=
  let prompt_len := prompt_tokens.input_ids.length
  let chosen_sequence : TokOut :=
    ⟨prompt_tokens.input_ids ++ chosen_tokens.input_ids,
     prompt_tokens.attention_mask ++ chosen_tokens.attention_mask⟩
  let rejected_sequence : TokOut :=
    ⟨prompt_tokens.input_ids ++ rejected_tokens.input_ids,
     prompt_tokens.attention_mask ++ rejected_tokens.attention_mask⟩
  let chosen_labels :=
    List.replicate prompt_len (-100 : Int) ++
      chosen_sequence.input_ids.drop prompt_len
  let rejected_labels :=
    List.replicate prompt_len (-100 : Int) ++
      rejected_sequence.input_ids.drop prompt_len
  [("prompt", .str prompt),
   ("chosen", .str (prompt ++ chosen)),
   ("rejected", .str (prompt ++ rejected)),
   ("chosen_response_only", .str chosen),
   ("rejected_response_only", .str rejected),
   ("chosen_input_ids", .ints chosen_sequence.input_ids),
   ("chosen_attention_mask", .ints chosen_sequence.attention_mask),
   ("chosen_labels", .ints chosen_labels),
   ("rejected_input_ids", .ints rejected_sequence.input_ids),
   ("rejected_attention_mask", .ints rejected_sequence.attention_mask),
   ("rejected_labels", .ints rejected_labels),
   ("prompt_input_ids", .ints prompt_tokens.input_ids),
   ("prompt_attention_mask", .ints prompt_tokens.attention_mask)]

/-- Lines 370-433.  The tokenizer is a parameter; the three EOS asserts of
lines 385-387 become `none`; then the EOS token is appended to both
responses, the sequences run through `truncate_tokens`, and the batch dict
is assembled by `assemble_batch`. -/
def tokenize_batch_element (tok : String → TokOut) (eos_token_id : Int)
    (prompt chosen rejected : String) (truncation_mode : TruncMode)
    (max_length max_prompt_length : Nat) : Option BatchElement :=
  let chosen_tokens := tok chosen
  let rejected_tokens := tok rejected
  let prompt_tokens := tok prompt
  if eos_token_id ∈ prompt_tokens.input_ids then none
  else if eos_token_id ∈ chosen_tokens.input_ids then none
  else if eos_token_id ∈ rejected_tokens.input_ids then none
  else
    let chosen_tokens : TokOut :=
      ⟨chosen_tokens.input_ids ++ [eos_token_id],
       chosen_tokens.attention_mask ++ [1]⟩
    let rejected_tokens : TokOut :=
      ⟨rejected_tokens.input_ids ++ [eos_token_id],
       rejected_tokens.attention_mask ++ [1]⟩
    let truncated := truncate_tokens truncation_mode max_length
      max_prompt_length prompt_tokens chosen_tokens rejected_tokens
    some (assemble_batch prompt chosen rejected truncated.1 truncated.2.1
      truncated.2.2)

/-- The token sequence stored under key `k` of a tokenized example (`[]`
when absent or a raw string). -/
def batchInts (b : BatchElement) (k : String) : List Int :=
  match dictGet b k with
  | some (.ints v) => v
  | _ => []

/-! ### `collate_fn` (lines 336-367) -/

/-- A value of a collated batch: a padded 2-D integer array, or the
pass-through list of raw field values. -/
inductive CollatedVal where
  | rows : List (List Int) → CollatedVal
  | raw : List FieldVal → CollatedVal
  deriving DecidableEq, Repr

/-- Length of the longest row (what `pad_sequence` pads to). -/
def maxRowLen (rows : List (List Int)) : Nat :=
  rows.foldl (fun a r => max a r.length) 0

/-- `torch.nn.utils.rnn.pad_sequence(..., batch_first=True, padding_value=fill)`:
right-pad every row to the longest row's length. -/
def pad_sequence (fill : Int) (rows : List (List Int)) : List (List Int) :=
  let m := maxRowLen rows
  rows.map (fun v => v ++ List.replicate (m - v.length) fill)

/-- The column `[ex[k] for ex in batch]` as token sequences; `none` when an
example lacks the key or holds a raw string there (a Python error). -/
def fieldRows (batch : List BatchElement) (k : String) :
    Option (List (List Int)) :=
  batch.mapM (fun ex =>
    match dictGet ex k with
    | some (FieldVal.ints v) => some v
    | _ => (none : Option (List Int)))

/-- The column `[ex[k] for ex in batch]` as raw values; `none` on a missing
key (Python `KeyError`). -/
def rawColumn (batch : List BatchElement) (k : String) :
    Option (List FieldVal) :=
  batch.mapM (fun ex => dictGet ex k)

/-- Lines 351-358: the suffix-specific `padding_value` (the final
`else raise` of line 358 is unreachable because this is only consulted for
keys that already matched one of the three suffixes). -/
def padding_value_for (pad_token_id : Int) (k : String) : Int :=
  if strEndsWith k "_input_ids" then pad_token_id
  else if strEndsWith k "_labels" then -100
  else 0

/-- Lines 345-364: the treatment of one key `k`.  Keys with a recognized
suffix are converted to tensors (reversed first when the name contains
`"prompt"`), padded with the suffix-specific fill value and (for prompt
fields) flipped back; all other keys pass through as raw lists. -/
def collateKey (pad_token_id : Int) (batch : List BatchElement) (k : String) :
    Option CollatedVal :=
  if strEndsWith k "_input_ids" || strEndsWith k "_attention_mask" ||
      strEndsWith k "_labels" then
    match fieldRows batch k with
    | none => none
    | some vs =>
        let to_pad := if strContains k "prompt" then vs.map List.reverse else vs
        let padded := pad_sequence (padding_value_for pad_token_id k) to_pad
        some (.rows (if strContains k "prompt" then padded.map List.reverse
          else padded))
  else
    match rawColumn batch k with
    | none => none
    | some col => some (.raw col)

/-- Lines 342-366: pad every field of the batch, iterating the keys of the
first example in insertion order (`batch[0]` on an empty batch is a Python
`IndexError`, hence `none`). -/
def collate_fn (pad_token_id : Int) (batch : List BatchElement) :
    Option (List (String × CollatedVal)) :=
  match batch with
  | [] => none
  | first :: _ =>
      (dictKeys first).mapM (fun k =>
        (collateKey pad_token_id batch k).map (fun v => (k, v)))

/-! ### `get_batch_iterator` (lines 436-532) -/

/-- One entry of `flat_data` (line 479): the tuple
`(prompt, responses, pairs, sft_target, truncation_mode)`. -/
structure FlatItem where
  prompt : String
  responses : List String
  pairs : List (Nat × Nat)
  sft_target : String
  truncation_mode : TruncMode
  deriving DecidableEq, Repr

/-- Lines 476-479: concatenate the canonical threads of all requested
corpora; `truncation_mode` is `keep_end` for `hh` and `keep_start`
otherwise.  `loaded` is the (already validated) per-corpus data. -/
def build_flat (names : List String) (loaded : String → PyData) :
    List FlatItem :=
  names.flatMap (fun name =>
    (loaded name).map (fun pd =>
      { prompt := pd.1
        responses := threadResponses pd.2
        pairs := threadPairs pd.2
        sft_target := threadSft pd.2
        truncation_mode :=
          if name == "hh" then TruncMode.keep_end else TruncMode.keep_start }))

/-- The keyword arguments of `get_batch_iterator` that steer the loop. -/
structure IterConfig where
  batch_size : Nat
  shuffle : Bool
  max_length : Nat
  max_prompt_length : Nat
  sft_mode : Bool
  n_epochs : Option Nat
  n_examples : Option Int
  d_examples : Option Int
  deriving DecidableEq, Repr

/-- Line 468: `assert n_epochs is not None or n_examples is not None or
d_examples` — note the last disjunct is Python truthiness, so
`d_examples = 0` does not satisfy it. -/
def stopping_criterion_ok (cfg : IterConfig) : Bool :=
  cfg.n_epochs.isSome || cfg.n_examples.isSome ||
    (match cfg.d_examples with
     | some d => d != 0
     | none => false)

/-- Lines 483-484: `if d_examples is not None: n_examples = len(flat_data)
- d_examples`. -/
def resolve_n_examples (flat_len : Nat) (n_examples d_examples : Option Int) :
    Option Int :=
  match d_examples with
  | some d => some ((flat_len : Int) - d)
  | none => n_examples

/-- Modelled from the spec: `TemporarilySeededRandom` lives in `utils.py`,
which is not part of `src/`.  Per the spec's determinism paragraph it saves
the ambient random state, seeds a freshly scoped instance from the given
seed, runs the body against the scoped state only, and restores the ambient
state on exit, so the body's randomness never perturbs the ambient state. -/
def withTemporarilySeededRandom (ambient : Nat) (seed : Nat)
    (act : Nat → α × Nat) : α × Nat :=
  ((act seed).1, ambient)

/-- The loop state of the generator body: the running tokenized-example
count, the pending batch, the batches yielded so far, the `done` flag, and
whether a fatal error (a failed assert or an out-of-range pair index)
aborted the iteration. -/
structure PassState where
  example_idx : Int
  batch : List BatchElement
  groups : List (List BatchElement)
  done : Bool
  crashed : Bool
  deriving Repr

/-- Lines 505-514 / 520-528 after one `batch.append(...)`: bump the example
count; when the pending batch reaches `batch_size`, yield it, set `done` if
the (resolved) example limit is reached, and reset the pending batch. -/
def pushExample (batch_size : Nat) (n_ex : Option Int) (st : PassState)
    (elem : BatchElement) : PassState :=
  let batch := st.batch ++ [elem]
  let example_idx := st.example_idx + 1
  if batch.length == batch_size then
    let done :=
      match n_ex with
      | some n => if example_idx ≥ n then true else st.done
      | none => st.done
    { example_idx := example_idx, batch := [], groups := st.groups ++ [batch],
      done := done, crashed := st.crashed }
  else
    { st with batch := batch, example_idx := example_idx }

/-- Lines 499-528: the body of the per-epoch `for` over `flat_data` for one
thread.  In sft mode one example from `sft_target` (with rejected-side
fields dropped); otherwise one example per preference pair, with the
`if done: break` checks of lines 500-501 and 517-518. -/
def processItem (tok : String → TokOut) (eos_token_id : Int)
    (batch_size : Nat) (n_ex : Option Int) (max_length max_prompt_length : Nat)
    (sft_mode : Bool) (st : PassState) (item : FlatItem) : PassState :=
  if st.done || st.crashed then st
  else if sft_mode then
    match tokenize_batch_element tok eos_token_id item.prompt item.sft_target
      item.sft_target item.truncation_mode max_length max_prompt_length with
    | none => { st with crashed := true }
    | some be =>
        let be := be.filter (fun kv => !(strContains kv.1 "rejected"))
        pushExample batch_size n_ex st be
  else
    item.pairs.foldl (fun st p =>
      if st.done || st.crashed then st
      else
        match item.responses.get? p.1, item.responses.get? p.2 with
        | some chosen, some rejected =>
            (match tokenize_batch_element tok eos_token_id item.prompt chosen
              rejected item.truncation_mode max_length max_prompt_length with
             | none => { st with crashed := true }
             | some be => pushExample batch_size n_ex st be)
        | _, _ => { st with crashed := true }) st

/-- One pass of the `for ... in flat_data` loop (lines 498-528), starting
from a fresh pending batch (line 498). -/
def epochPass (tok : String → TokOut) (eos_token_id : Int) (batch_size : Nat)
    (n_ex : Option Int) (max_length max_prompt_length : Nat) (sft_mode : Bool)
    (flat : List FlatItem) (example_idx : Int) : PassState :=
  flat.foldl
    (processItem tok eos_token_id batch_size n_ex max_length max_prompt_length
      sft_mode)
    { example_idx := example_idx, batch := [], groups := [], done := false,
      crashed := false }

/-- Line 490: the epoch-limit test. -/
def epoch_limit_reached (n_epochs : Option Nat) (epoch_idx : Nat) : Bool :=
  match n_epochs with
  | some ne => decide (epoch_idx ≥ ne)
  | none => false

/-- Lines 489-532: the `while True` epoch loop, as fuel-indexed recursion
(each unit of fuel is one epoch; the fuel only matters when no epoch limit
is set).  Returns the yielded batches (pre-collation), the crash flag and
the final ambient random state; each reshuffle runs inside
`withTemporarilySeededRandom` under the next pre-generated seed. -/
def epochLoop (tok : String → TokOut) (eos_token_id : Int)
    (permSeeds : Nat → Nat) (shuffleWith : Nat → List FlatItem → List FlatItem)
    (cfg : IterConfig) (n_ex : Option Int) (fuel : Nat) (epoch_idx : Nat)
    (example_idx : Int) (flat : List FlatItem) (ambient : Nat) :
    List (List BatchElement) × Bool × Nat :=
  match fuel with
  | 0 => ([], false, ambient)
  | fuel + 1 =>
    if epoch_limit_reached cfg.n_epochs epoch_idx then ([], false, ambient)
    else
      let shuffled :=
        if cfg.shuffle then
          withTemporarilySeededRandom ambient (permSeeds epoch_idx)
            (fun sc => (shuffleWith sc flat, sc))
        else (flat, ambient)
      let flat := shuffled.1
      let ambient := shuffled.2
      let st := epochPass tok eos_token_id cfg.batch_size n_ex cfg.max_length
        cfg.max_prompt_length cfg.sft_mode flat example_idx
      if st.done || st.crashed then (st.groups, st.crashed, ambient)
      else
        let rest := epochLoop tok eos_token_id permSeeds shuffleWith cfg n_ex
          fuel (epoch_idx + 1) st.example_idx flat ambient
        (st.groups ++ rest.1, rest.2.1, rest.2.2)

/-- The full result of one run of `get_batch_iterator`. -/
structure IterOut where
  groups : List (List BatchElement)
  crashed : Bool
  ambient : Nat
  deriving Repr

/-- Lines 436-532.  `permSeedAt scoped i` models the `i`-th entry of the
`np.random.randint(0, 2**32, size=1000000)` array drawn inside the first
`TemporarilySeededRandom(seed)` block (line 474); `shuffleWith s` models
`random.shuffle` under a scoped state `s`; `ambient` is the process-wide
random state outside this component. -/
def get_batch_iterator_run (tok : String → TokOut) (eos_token_id : Int)
    (permSeedAt : Nat → Nat → Nat)
    (shuffleWith : Nat → List FlatItem → List FlatItem)
    (names : List String) (loaded : String → PyData) (cfg : IterConfig)
    (seed : Nat) (fuel : Nat) (ambient : Nat) : IterOut :=
  if !(stopping_criterion_ok cfg) then
    { groups := [], crashed := true, ambient := ambient }
  else
    let setup := withTemporarilySeededRandom ambient seed
      (fun sc => ((build_flat names loaded, fun i => permSeedAt sc i), sc))
    let flat_data := setup.1.1
    let permSeeds := setup.1.2
    let ambient := setup.2
    let n_ex := resolve_n_examples flat_data.length cfg.n_examples
      cfg.d_examples
    let r := epochLoop tok eos_token_id permSeeds shuffleWith cfg n_ex fuel 0 0
      flat_data ambient
    { groups := r.1, crashed := r.2.1, ambient := r.2.2 }

/-- The stream of yielded batches.  The source collates each batch at its
`yield` (lines 508 and 523) with the collator of `get_collate_fn(tokenizer)`
(line 481); collating the emitted group list is the same computation. -/
def get_batch_iterator_batches (tok : String → TokOut)
    (eos_token_id pad_token_id : Int) (permSeedAt : Nat → Nat → Nat)
    (shuffleWith : Nat → List FlatItem → List FlatItem)
    (names : List String) (loaded : String → PyData) (cfg : IterConfig)
    (seed : Nat) (fuel : Nat) (ambient : Nat) :
    List (Option (List (String × CollatedVal))) :=
  (get_batch_iterator_run tok eos_token_id permSeedAt shuffleWith names loaded
    cfg seed fuel ambient).groups.map (collate_fn pad_token_id)

/-- Written from the spec's words (for claim C4): "the total number of
tokenized examples the corpus would emit" — one example per thread in sft
mode, one per preference pair otherwise. -/
def spec_total_tokenized_examples (flat : List FlatItem) (sft_mode : Bool) :
    Nat :=
  if sft_mode then flat.length
  else (flat.map (fun it => it.pairs.length)).sum

/-! ### Shared lemmas -/

/-- `dictSet` only adds the written binding or keeps old ones. -/
theorem mem_dictSet [BEq κ] {m : List (κ × α)} {k : κ} {v : α} {x : κ × α}
    (hx : x ∈ dictSet m k v) : x = (k, v) ∨ x ∈ m := by
  induction m with
  | nil => simpa [dictSet] using hx
  | cons hd tl ih =>
      rw [dictSet] at hx
      split at hx
      · rcases List.mem_cons.mp hx with h | h
        · exact Or.inl h
        · exact Or.inr (List.mem_cons_of_mem _ h)
      · rcases List.mem_cons.mp hx with h | h
        · exact Or.inr (h ▸ List.mem_cons_self _ _)
        · rcases ih h with h' | h'
          · exact Or.inl h'
          · exact Or.inr (List.mem_cons_of_mem _ h')

/-- Unfolding `dictGet` one binding at a time. -/
theorem dictGet_cons (k0 k : String) (v0 : α) (tl : List (String × α)) :
    dictGet ((k0, v0) :: tl) k = if k == k0 then some v0 else dictGet tl k := by
  simp only [dictGet, List.lookup]
  split <;> rename_i h <;> simp [h]

/-- Reading back the key just written. -/
theorem dictGet_set_eq (m : List (String × α)) (k : String) (v : α) :
    dictGet (dictSet m k v) k = some v := by
  induction m with
  | nil => simp [dictSet, dictGet_cons, dictGet]
  | cons hd tl ih =>
      obtain ⟨k', v'⟩ := hd
      rw [dictSet]
      by_cases h : k' = k
      · simp [h, dictGet_cons]
      · have hb : (k' == k) = false := by simpa using h
        have hb2 : (k == k') = false := by simpa using Ne.symm h
        simpa [hb, dictGet_cons, hb2] using ih

/-- Writing one key does not disturb another. -/
theorem dictGet_set_ne (m : List (String × α)) (k k' : String) (v : α)
    (hne : k' ≠ k) : dictGet (dictSet m k v) k' = dictGet m k' := by
  have hb' : (k' == k) = false := by simpa using hne
  induction m with
  | nil => simpa [dictSet, dictGet_cons, hb', dictGet] using hne
  | cons hd tl ih =>
      obtain ⟨k0, v0⟩ := hd
      rw [dictSet]
      by_cases h : k0 = k
      · subst h
        simp [dictGet_cons, hb']
      · have hb : (k0 == k) = false := by simpa using h
        simp only [hb, Bool.false_eq_true, if_false, dictGet_cons]
        rw [ih]

/-- Deleting one key does not disturb another. -/
theorem dictGet_del_ne (m : List (String × α)) (k k' : String)
    (hne : k' ≠ k) : dictGet (dictDel m k) k' = dictGet m k' := by
  have hb' : (k' == k) = false := by simpa using hne
  induction m with
  | nil => simp [dictDel]
  | cons hd tl ih =>
      obtain ⟨k0, v0⟩ := hd
      rw [dictDel]
      by_cases h : k0 = k
      · subst h
        simp [dictGet_cons, hb', ih]
      · have hb : (k0 == k) = false := by simpa using h
        simp only [hb, Bool.false_eq_true, if_false, dictGet_cons]
        rw [ih]

/-- A fold preserves any invariant its step preserves. -/
theorem foldl_preserves {α β : Type _} {P : β → Prop} (f : β → α → β)
    (l : List α) (b : β) (hb : P b)
    (hf : ∀ b' a, a ∈ l → P b' → P (f b' a)) : P (l.foldl f b) := by
  induction l generalizing b with
  | nil => exact hb
  | cons a l ih =>
      exact ih (f b a) (hf b a (List.mem_cons_self _ _) hb)
        (fun b' a' ha' => hf b' a' (List.mem_cons_of_mem _ ha'))

/-- Every pair the ranked double loop emits has both indices below the score
count. -/
theorem rankedPairs_bounds (scores : List Int) (p : Nat × Nat)
    (hp : p ∈ rankedPairs scores) :
    p.1 < scores.length ∧ p.2 < scores.length := by
  unfold rankedPairs at hp
  rw [List.mem_flatMap] at hp
  obtain ⟨i, hi, hp⟩ := hp
  rw [List.mem_map] at hp
  obtain ⟨j, hj, rfl⟩ := hp
  rw [List.mem_range] at hi
  rw [List.mem_range'] at hj
  obtain ⟨d, hd, rfl⟩ := hj
  split <;> constructor <;> simp <;> omega

/-- The membership form of `rankedPairs` used by claim C7. -/
theorem mem_rankedPairs (scores : List Int) (i j : Nat) (hij : i < j)
    (hj : j < scores.length) :
    (if scores.getD i 0 > scores.getD j 0 then (i, j) else (j, i)) ∈
      rankedPairs scores := by
  unfold rankedPairs
  rw [List.mem_flatMap]
  refine ⟨i, List.mem_range.mpr (lt_trans hij hj), ?_⟩
  rw [List.mem_map]
  exact ⟨j, List.mem_range'.mpr ⟨j - (i + 1), by omega, by omega⟩, rfl⟩

/-! ### Claim C1 -/

/-- A dataset whose first thread is canonical but whose second thread
carries an extra field. -/
def c1BadData : PyData :=
  [("p1", [("responses", .vStrList ["a"]), ("pairs", .vPairs []),
    ("sft_target", .vStr "a")]),
   ("p2", [("responses", .vStrList ["b"]), ("pairs", .vPairs []),
    ("sft_target", .vStr "b"), ("extra", .vStr "x")])]

/-- C1 counterexample: `get_dataset` does NOT raise the schema-invariant
error whenever some thread's field set deviates from
`{responses, pairs, sft_target}` — a dataset whose second thread has an
extra field is returned unchanged, because the assertion of lines 330-331
inspects only `list(data.values())[0]`. -/
theorem c1_counterexample :
    get_dataset "hh" [] c1BadData [] [] = .ok c1BadData ∧
    keysAreCanonical (dictKeys (c1BadData.getD 1 ("", [])).2) = false :=
  ⟨rfl, rfl⟩

/-- C1 (amended): for every supported corpus name, `get_dataset` checks
that the FIRST returned thread's field set equals exactly
`{responses, pairs, sft_target}`, raising the fatal schema-invariant error
exactly when that first thread deviates; threads after the first are never
inspected (the outcome is unchanged under any replacement of the tail). -/
theorem c1_first_thread_schema_check (p : String) (t : PyThread)
    (rest rest' : PyData) :
    (get_dataset_validate ((p, t) :: rest) =
      (if keysAreCanonical (dictKeys t) then Except.ok ((p, t) :: rest)
       else Except.error DsError.schemaAssert)) ∧
    ((get_dataset_validate ((p, t) :: rest)).isOk =
      (get_dataset_validate ((p, t) :: rest')).isOk) ∧
    (get_dataset "hh" [] ((p, t) :: rest) [] [] =
      get_dataset_validate ((p, t) :: rest)) := by
  refine ⟨rfl, ?_, rfl⟩
  simp only [get_dataset_validate]
  split <;> rfl

/-! ### Claim C10 -/

/-- C10: for every supported corpus name, when the adapter returns an empty
mapping `get_dataset` neither returns it nor raises the schema-invariant
error: `list(data.values())[0]` raises an out-of-range indexing error. -/
theorem c10_empty_adapter_index_error (shpD hhD seD oaD : PyData) :
    get_dataset "shp" [] hhD seD oaD = .error .indexError ∧
    get_dataset "hh" shpD [] seD oaD = .error .indexError ∧
    get_dataset "se" shpD hhD [] oaD = .error .indexError ∧
    get_dataset "oa" shpD hhD seD [] = .error .indexError :=
  ⟨rfl, rfl, rfl, rfl⟩

/-! ### Claim C4 -/

/-- A tokenizer stand-in that maps every string to a single token `1`. -/
def tokTrivial : String → TokOut := fun _ => ⟨[1], [1]⟩

/-- A canonical thread contributing two preference pairs. -/
def c4Thread : PyThread :=
  [("responses", .vStrList ["a", "b"]), ("pairs", .vPairs [(0, 1), (1, 0)]),
   ("sft_target", .vStr "a")]

/-- Two threads with two pairs each: four tokenized preference examples. -/
def c4Data : PyData := [("p1", c4Thread), ("p2", c4Thread)]

/-- Preference mode, `batch_size = 1`, resume offset `d_examples = 1`. -/
def c4Cfg : IterConfig :=
  { batch_size := 1, shuffle := false, max_length := 10,
    max_prompt_length := 5, sft_mode := false, n_epochs := none,
    n_examples := none, d_examples := some 1 }

/-- C4 counterexample: with two threads of two pairs each (four tokenized
examples) and resume offset `1`, the internal conversion yields
`len(flat_data) - d_examples = 1`, not `total tokenized examples - offset
= 3`; accordingly the iterator emits one single-example batch, not three. -/
theorem c4_counterexample :
    resolve_n_examples (build_flat ["x"] (fun _ => c4Data)).length none
      (some 1) = some 1 ∧
    spec_total_tokenized_examples (build_flat ["x"] (fun _ => c4Data)) false
      = 4 ∧
    ((4 : Int) - 1 ≠ 1) ∧
    (get_batch_iterator_run tokTrivial 2 (fun _ i => i) (fun _ l => l) ["x"]
      (fun _ => c4Data) c4Cfg 0 3 0).groups.length = 1 := by
  refine ⟨rfl, rfl, by decide, rfl⟩

/-- C4 (amended): the resume offset is converted internally into
`n_examples = len(flat_data) - d_examples`, the number of flat thread
entries minus the offset; this equals the total number of tokenized
examples the corpus would emit only in sft mode, where each thread yields
exactly one example. -/
theorem c4_offset_resolution (flat : List FlatItem) (n0 : Option Int)
    (d : Int) :
    resolve_n_examples flat.length n0 (some d) =
      some ((flat.length : Int) - d) ∧
    spec_total_tokenized_examples flat true = flat.length :=
  ⟨rfl, by simp [spec_total_tokenized_examples]⟩

/-! ### Claim C7 -/

/-- C7: when the thread extractor emits a thread at a human node, its
`pairs` field contains, for every index pair `i < j` over the direct
replies, `(i, j)` when the (null-normalized, `oaRank`) rank of reply `i`
strictly exceeds that of reply `j`, and `(j, i)` otherwise — so exactly
equal ranks resolve to `(j, i)`.  (`fill_threads` calls `emit_thread` after
`normalize_null_ranks`, under which the stored rank is always `some` and
equals `oaRank`.) -/
theorem c7_emitted_pairs (conversation : String) (replies : List OANode)
    (i j : Nat) (hij : i < j) (hj : j < replies.length) :
    (if (replies.map oaRank).getD i 0 > (replies.map oaRank).getD j 0
     then (i, j) else (j, i)) ∈
      threadPairs (emit_thread conversation replies) := by
  have hlen : (replies.length == 1) = false := by
    simp only [beq_eq_false_iff_ne, ne_eq]
    omega
  have hmem := mem_rankedPairs (replies.map oaRank) i j hij (by simpa using hj)
  have h1 : (("pairs" : String) == "responses") = false := by decide
  have h2 : (("pairs" : String) == "pairs") = true := by decide
  simp only [emit_thread, threadPairs, hlen, Bool.false_eq_true, if_false,
    dictGet_cons, h1, h2, if_true]
  exact hmem

/-- C7 witness: two direct replies with exactly equal ranks yield the pair
`(1, 0)` — the later index preferred. -/
theorem c7_equal_ranks_witness :
    ((1, 0) : Nat × Nat) ∈ threadPairs (emit_thread ""
      [OANode.mk .assistant "r0" false true (some 1) [],
       OANode.mk .assistant "r1" false true (some 1) []]) := by
  have h := c7_emitted_pairs ""
    [OANode.mk .assistant "r0" false true (some 1) [],
     OANode.mk .assistant "r1" false true (some 1) []] 0 1 (by decide)
    (by decide)
  rw [if_neg (by decide)] at h
  exact h

/-! ### Claim C8 -/

/-- C8: thread extraction at a human node whose only direct reply has rank
`null`, no further replies (and is non-deleted and reviewed, so the branch
point qualifies) yields exactly one thread with exactly 2 responses — the
reply's text plus the synthesized empty-string filler — the single pair
`(0, 1)`, and `sft_target` equal to the reply's text. -/
theorem c8_single_null_rank_reply (t tH : String) (dH rvH : Bool)
    (rkH : Option Int) :
    fill_threads 2
      (OANode.mk .prompter tH dH rvH rkH
        [OANode.mk .assistant t false true none []]) [] "" =
    [("Human: " ++ tH ++ "\n\nAssistant: ",
      [("responses", PyVal.vStrList [t, ""]), ("pairs", PyVal.vPairs [(0, 1)]),
       ("sft_target", PyVal.vStr t)])] := rfl

/-! ### Claim C2 -/

/-- A tokenizer stand-in mapping every character to token `1`, so the token
count equals the character count. -/
def tokOne : String → TokOut :=
  fun s => ⟨s.toList.map (fun _ => (1 : Int)), s.toList.map (fun _ => (1 : Int))⟩

/-- C2 counterexample: with a 10-token prompt, `max_length = 8` and
`max_prompt_length = 20`, the prompt truncation (`v[:20]`) keeps all 10
tokens and the response truncation (`v[:8 - 20]`, a negative Python slice)
empties both responses, so the emitted `chosen_input_ids` (prompt +
chosen response) has 10 > 8 = `max_length` tokens. -/
theorem c2_counterexample :
    (tokenize_batch_element tokOne 9 "0123456789" "abc" "ab"
      TruncMode.keep_start 8 20).isSome = true ∧
    (batchInts ((tokenize_batch_element tokOne 9 "0123456789" "abc" "ab"
      TruncMode.keep_start 8 20).getD []) "prompt_input_ids").length = 10 ∧
    (batchInts ((tokenize_batch_element tokOne 9 "0123456789" "abc" "ab"
      TruncMode.keep_start 8 20).getD []) "chosen_input_ids").length = 10 ∧
    ¬ (10 ≤ 8) := by decide

/-- After truncation (`v[:n]` with `0 ≤ n`) at most `n` elements remain. -/
theorem pyTakeTo_length_le (v : List α) (n : Int) (hn : 0 ≤ n) :
    (pyTakeTo v n).length ≤ n.toNat := by
  simp only [pyTakeTo, if_pos hn, List.length_take]
  omega

/-- `v[-m:]` keeps at most `m` elements — provided `m ≥ 1` (Python's
`v[-0:]` keeps everything). -/
theorem pyTakeLast_length_le (v : List α) (m : Nat) (hm : 1 ≤ m) :
    (pyTakeLast v m).length ≤ m := by
  have h0 : m ≠ 0 := by omega
  simp only [pyTakeLast, if_neg h0, List.length_drop]
  omega

/-- The truncated prompt has at most `max_prompt_length` tokens, provided
the mode is `keep_start` or `max_prompt_length ≥ 1`. -/
theorem truncated_prompt_length_le (mode : TruncMode) (mpl : Nat) (p : TokOut)
    (hmode : mode = TruncMode.keep_start ∨ 1 ≤ mpl) :
    (match mode with
     | TruncMode.keep_start => tokOutMap (fun v => v.take mpl) p
     | TruncMode.keep_end => tokOutMap (fun v => pyTakeLast v mpl) p).input_ids.length
      ≤ mpl := by
  cases mode with
  | keep_start => simp [tokOutMap]
  | keep_end =>
      rcases hmode with h | h
      · exact absurd h (by simp)
      · exact pyTakeLast_length_le _ _ h

/-- The core bound: after `truncate_tokens`, prompt + each response fits in
`max_length`, provided `max_prompt_length ≤ max_length` and the prompt
truncation can actually shorten (`keep_start`, or `keep_end` with a positive
`max_prompt_length`). -/
theorem truncate_tokens_length_le (mode : TruncMode) (ml mpl : Nat)
    (p c r : TokOut) (hmpl : mpl ≤ ml)
    (hmode : mode = TruncMode.keep_start ∨ 1 ≤ mpl) :
    (truncate_tokens mode ml mpl p c r).1.input_ids.length +
      (truncate_tokens mode ml mpl p c r).2.1.input_ids.length ≤ ml ∧
    (truncate_tokens mode ml mpl p c r).1.input_ids.length +
      (truncate_tokens mode ml mpl p c r).2.2.input_ids.length ≤ ml := by
  have hc : c.input_ids.length ≤ max c.input_ids.length r.input_ids.length :=
    Nat.le_max_left _ _
  have hr : r.input_ids.length ≤ max c.input_ids.length r.input_ids.length :=
    Nat.le_max_right _ _
  have htc : (pyTakeTo c.input_ids ((ml : Int) - (mpl : Int))).length ≤
      ml - mpl := by
    have := pyTakeTo_length_le c.input_ids ((ml : Int) - (mpl : Int)) (by omega)
    omega
  have htr : (pyTakeTo r.input_ids ((ml : Int) - (mpl : Int))).length ≤
      ml - mpl := by
    have := pyTakeTo_length_le r.input_ids ((ml : Int) - (mpl : Int)) (by omega)
    omega
  cases mode with
  | keep_start =>
      have hjt : (List.take mpl p.input_ids).length =
          min mpl p.input_ids.length := List.length_take ..
      simp only [truncate_tokens, tokOutMap]
      constructor <;> (split <;> (try split) <;> (dsimp only at *; omega))
  | keep_end =>
      have hm : 1 ≤ mpl := by
        rcases hmode with h | h
        · exact absurd h (by simp)
        · exact h
      have hpl : (pyTakeLast p.input_ids mpl).length ≤ mpl :=
        pyTakeLast_length_le _ _ hm
      simp only [truncate_tokens, tokOutMap]
      constructor <;> (split <;> (try split) <;> (dsimp only at *; omega))

/-- Reading the three input-id fields back out of `assemble_batch`. -/
theorem batchInts_assemble (prompt chosen rejected : String)
    (P C R : TokOut) :
    batchInts (assemble_batch prompt chosen rejected P C R)
      "prompt_input_ids" = P.input_ids ∧
    batchInts (assemble_batch prompt chosen rejected P C R)
      "chosen_input_ids" = P.input_ids ++ C.input_ids ∧
    batchInts (assemble_batch prompt chosen rejected P C R)
      "rejected_input_ids" = P.input_ids ++ R.input_ids := by
  refine ⟨?_, ?_, ?_⟩ <;> simp [assemble_batch, batchInts, dictGet_cons]

/-- C2 (amended): for every tokenizer output, both truncation modes and all
`max_length`, `max_prompt_length` with `max_prompt_length ≤ max_length` and
(`keep_start`, or `max_prompt_length ≥ 1`), every emitted side satisfies
`len(prompt_input_ids) + len(response tokens) ≤ max_length`, i.e. the
combined prompt+response token count (the length of `chosen_input_ids` /
`rejected_input_ids`) never exceeds `max_length`. -/
theorem c2_combined_length_bound (tok : String → TokOut) (eos : Int)
    (prompt chosen rejected : String) (mode : TruncMode) (ml mpl : Nat)
    (b : BatchElement) (hmpl : mpl ≤ ml)
    (hmode : mode = TruncMode.keep_start ∨ 1 ≤ mpl)
    (hb : tokenize_batch_element tok eos prompt chosen rejected mode ml mpl
      = some b) :
    (batchInts b "chosen_input_ids").length ≤ ml ∧
    (batchInts b "rejected_input_ids").length ≤ ml := by
  simp only [tokenize_batch_element] at hb
  split at hb
  · exact absurd hb (by simp)
  · split at hb
    · exact absurd hb (by simp)
    · split at hb
      · exact absurd hb (by simp)
      · injection hb with hb
        subst hb
        obtain ⟨-, hchosen, hrejected⟩ := batchInts_assemble prompt chosen
          rejected _ _ _
        rw [hchosen, hrejected]
        obtain ⟨h1, h2⟩ := truncate_tokens_length_le mode ml mpl (tok prompt)
          ⟨(tok chosen).input_ids ++ [eos], (tok chosen).attention_mask ++ [1]⟩
          ⟨(tok rejected).input_ids ++ [eos],
           (tok rejected).attention_mask ++ [1]⟩ hmpl hmode
        constructor
        · simpa [List.length_append] using h1
        · simpa [List.length_append] using h2

/-- C2 witness: a concrete instance of the amended bound
(`max_length = 8`, `max_prompt_length = 4`, `keep_start`). -/
theorem c2_bound_witness :
    (batchInts ((tokenize_batch_element tokOne 9 "0123456789" "abc" "ab"
      TruncMode.keep_start 8 4).getD []) "chosen_input_ids").length ≤ 8 ∧
    (batchInts ((tokenize_batch_element tokOne 9 "0123456789" "abc" "ab"
      TruncMode.keep_start 8 4).getD []) "rejected_input_ids").length ≤ 8 :=
  c2_combined_length_bound tokOne 9 "0123456789" "abc" "ab"
    TruncMode.keep_start 8 4 _ (by decide) (Or.inl rfl) (by decide)

/-! ### Claim C6 -/

/-- Reversing every row does not change the maximal row length. -/
theorem maxRowLen_map_reverse (vs : List (List Int)) :
    maxRowLen (vs.map List.reverse) = maxRowLen vs := by
  suffices h : ∀ a : Nat,
      (vs.map List.reverse).foldl (fun a r => max a r.length) a =
        vs.foldl (fun a r => max a r.length) a from h 0
  induction vs with
  | nil => intro a; rfl
  | cons v tl ih => intro a; simp only [List.map_cons, List.foldl_cons,
      List.length_reverse]; exact ih _

/-- reverse ∘ right-pad ∘ reverse = left-pad, row by row. -/
theorem map_revpad (fill : Int) (m : Nat) (vs : List (List Int)) :
    ((vs.map List.reverse).map
      (fun v => v ++ List.replicate (m - v.length) fill)).map List.reverse =
      vs.map (fun v => List.replicate (m - v.length) fill ++ v) := by
  induction vs with
  | nil => rfl
  | cons v tl ih =>
      simp only [List.map_cons, List.reverse_append, List.reverse_reverse,
        List.reverse_replicate, List.length_reverse, ih]

/-- Successful `mapM` over `Option` contains the image of every element. -/
theorem mapM_option_mem {α β : Type _} {f : α → Option β} {l : List α}
    {res : List β} (h : l.mapM f = some res) {a : α} (ha : a ∈ l) {b : β}
    (hb : f a = some b) : b ∈ res := by
  induction l generalizing res with
  | nil => cases ha
  | cons x xs ih =>
      rw [List.mapM_cons] at h
      cases hfx : f x with
      | none => rw [hfx] at h; simp at h
      | some y =>
          rw [hfx] at h
          cases hxs : xs.mapM f with
          | none => rw [hxs] at h; simp at h
          | some ys =>
              rw [hxs] at h
              simp only [Option.pure_def, Option.bind_eq_bind,
                Option.some_bind, Option.some.injEq] at h
              subst h
              rcases List.mem_cons.mp ha with rfl | ha'
              · rw [hfx] at hb
                injection hb with hb
                exact hb ▸ List.mem_cons_self _ _
              · exact List.mem_cons_of_mem _ (ih hxs ha')

/-- C6: every field whose name ends in `_input_ids`, `_attention_mask` or
`_labels` is padded to the batch's maximum length with the suffix-specific
fill value; fields whose name contains `"prompt"` get the padding on the
left (each padded row's suffix is the original sequence, so reversing the
left-pad transform — dropping the pad prefix — recovers it exactly), all
other such fields keep the original as a prefix with padding on the right;
and the batches produced by `collate_fn` contain exactly these padded
fields. -/
theorem c6_collate_padding (pad : Int) (batch : List BatchElement)
    (k : String) (vs : List (List Int))
    (hsuffix : (strEndsWith k "_input_ids" || strEndsWith k "_attention_mask"
      || strEndsWith k "_labels") = true)
    (hrows : fieldRows batch k = some vs) :
    (collateKey pad batch k = some (CollatedVal.rows (vs.map (fun v =>
      if strContains k "prompt" then
        List.replicate (maxRowLen vs - v.length) (padding_value_for pad k) ++ v
      else
        v ++ List.replicate (maxRowLen vs - v.length)
          (padding_value_for pad k))))) ∧
    (∀ v : List Int,
      (List.replicate (maxRowLen vs - v.length) (padding_value_for pad k)
        ++ v).drop (maxRowLen vs - v.length) = v) ∧
    (∀ res, collate_fn pad batch = some res → k ∈ dictKeys (batch.headD []) →
      (k, CollatedVal.rows (vs.map (fun v =>
        if strContains k "prompt" then
          List.replicate (maxRowLen vs - v.length) (padding_value_for pad k)
            ++ v
        else
          v ++ List.replicate (maxRowLen vs - v.length)
            (padding_value_for pad k)))) ∈ res) := by
  have hmain : collateKey pad batch k = some (CollatedVal.rows (vs.map
      (fun v =>
      if strContains k "prompt" then
        List.replicate (maxRowLen vs - v.length) (padding_value_for pad k) ++ v
      else
        v ++ List.replicate (maxRowLen vs - v.length)
          (padding_value_for pad k)))) := by
    unfold collateKey
    rw [if_pos hsuffix, hrows]
    by_cases hp : strContains k "prompt" = true
    · simp only [hp, if_true, pad_sequence, maxRowLen_map_reverse, map_revpad]
    · simp only [Bool.not_eq_true] at hp
      simp only [hp, Bool.false_eq_true, if_false, pad_sequence]
  refine ⟨hmain, ?_, ?_⟩
  · intro v
    exact List.drop_left' (List.length_replicate ..)
  · intro res hres hk
    cases batch with
    | nil => simp [collate_fn] at hres
    | cons first rest =>
        simp only [collate_fn] at hres
        simp only [List.headD_cons] at hk
        exact mapM_option_mem hres hk (by rw [hmain]; rfl)

/-- The spec's collator round-trip example: `chosen_input_ids` row lengths
`[3,5,4]` and `prompt_input_ids` row lengths `[2,4,3]`, pad id `0`. -/
def c6Batch : List BatchElement :=
  [[("prompt_input_ids", .ints [1, 2]),
    ("chosen_input_ids", .ints [11, 12, 13])],
   [("prompt_input_ids", .ints [3, 4, 5, 6]),
    ("chosen_input_ids", .ints [14, 15, 16, 17, 18])],
   [("prompt_input_ids", .ints [7, 8, 9]),
    ("chosen_input_ids", .ints [19, 20, 21, 22])]]

/-- C6 witness: on the spec's example batch, prompts are left-padded and
chosen sequences right-padded with `0`. -/
theorem c6_collate_witness :
    collateKey 0 c6Batch "prompt_input_ids" =
      some (.rows [[0, 0, 1, 2], [3, 4, 5, 6], [0, 7, 8, 9]]) ∧
    collateKey 0 c6Batch "chosen_input_ids" =
      some (.rows [[11, 12, 13, 0, 0], [14, 15, 16, 17, 18],
        [19, 20, 21, 22, 0]]) := by
  constructor
  · have h := (c6_collate_padding 0 c6Batch "prompt_input_ids"
      [[1, 2], [3, 4, 5, 6], [7, 8, 9]] (by decide) (by decide)).1
    exact h.trans (by decide)
  · have h := (c6_collate_padding 0 c6Batch "chosen_input_ids"
      [[11, 12, 13], [14, 15, 16, 17, 18], [19, 20, 21, 22]] (by decide)
      (by decide)).1
    exact h.trans (by decide)

/-! ### Claim C5 -/

/-- Every batch yielded so far contains exactly `bs` examples. -/
def groupsSized (bs : Nat) (st : PassState) : Prop :=
  ∀ g ∈ st.groups, g.length = bs

theorem pushExample_groupsSized (bs : Nat) (n_ex : Option Int)
    (st : PassState) (elem : BatchElement) (h : groupsSized bs st) :
    groupsSized bs (pushExample bs n_ex st elem) := by
  intro g hg
  unfold pushExample at hg
  by_cases hlen : ((st.batch ++ [elem]).length == bs) = true
  · simp only [hlen, if_true] at hg
    rcases List.mem_append.mp hg with hmem | hmem
    · exact h g hmem
    · rw [List.mem_singleton.mp hmem]
      exact beq_iff_eq.mp hlen
  · simp only [hlen, if_false] at hg
    exact h g hg

theorem processItem_groupsSized (tok : String → TokOut) (eos : Int)
    (bs : Nat) (n_ex : Option Int) (ml mpl : Nat) (sft : Bool)
    (st : PassState) (item : FlatItem) (h : groupsSized bs st) :
    groupsSized bs (processItem tok eos bs n_ex ml mpl sft st item) := by
  unfold processItem
  split
  · exact h
  · split
    · split
      · exact h
      · exact pushExample_groupsSized _ _ _ _ h
    · refine foldl_preserves _ _ _ h ?_
      intro st' p _ h'
      split
      · exact h'
      · split
        · split
          · exact h'
          · exact pushExample_groupsSized _ _ _ _ h'
        · exact h'

theorem epochPass_groupsSized (tok : String → TokOut) (eos : Int) (bs : Nat)
    (n_ex : Option Int) (ml mpl : Nat) (sft : Bool) (flat : List FlatItem)
    (ex : Int) :
    groupsSized bs (epochPass tok eos bs n_ex ml mpl sft flat ex) := by
  unfold epochPass
  refine foldl_preserves _ _ _ ?_ ?_
  · intro g hg
    cases hg
  · intro st item _ h
    exact processItem_groupsSized _ _ _ _ _ _ _ _ _ h

theorem epochLoop_groupsSized (tok : String → TokOut) (eos : Int)
    (permSeeds : Nat → Nat) (shuffleWith : Nat → List FlatItem → List FlatItem)
    (cfg : IterConfig) (n_ex : Option Int) (fuel epoch_idx : Nat)
    (example_idx : Int) (flat : List FlatItem) (ambient : Nat) :
    ∀ g ∈ (epochLoop tok eos permSeeds shuffleWith cfg n_ex fuel epoch_idx
      example_idx flat ambient).1, g.length = cfg.batch_size := by
  induction fuel generalizing epoch_idx example_idx flat ambient with
  | zero => intro g hg; cases hg
  | succ fuel ih =>
      rw [epochLoop]
      split
      · intro g hg; cases hg
      · intro g hg
        dsimp only at hg
        split at hg <;> (try split at hg) <;>
          first
            | exact epochPass_groupsSized _ _ _ _ _ _ _ _ _ g hg
            | exact (List.mem_append.mp hg).elim
                (fun hmem => epochPass_groupsSized _ _ _ _ _ _ _ _ _ g hmem)
                (fun hmem => ih _ _ _ _ g hmem)

/-- The C5 scenario: preference mode, `batch_size = 3`, `n_examples = 3`. -/
def c5Cfg : IterConfig :=
  { batch_size := 3, shuffle := false, max_length := 100,
    max_prompt_length := 10, sft_mode := false, n_epochs := none,
    n_examples := some 3, d_examples := none }

/-- C5: with two threads contributing 2 preference pairs each (4 tokenized
examples), `batch_size = 3` and `n_examples = 3`, exactly one batch of size
3 is yielded and iteration halts without a second batch; and in general
every yielded batch has exactly `batch_size` examples — the example count is
checked only right after a yield, and a trailing partial batch is never
yielded. -/
theorem c5_one_full_batch :
    ((get_batch_iterator_run tokTrivial 2 (fun _ i => i) (fun _ l => l) ["x"]
      (fun _ => c4Data) c5Cfg 0 3 0).groups.map List.length = [3]) ∧
    (∀ (tok : String → TokOut) (eos : Int) (permSeedAt : Nat → Nat → Nat)
      (shuffleWith : Nat → List FlatItem → List FlatItem)
      (names : List String) (loaded : String → PyData) (cfg : IterConfig)
      (seed fuel ambient : Nat),
      ((get_batch_iterator_run tok eos permSeedAt shuffleWith names loaded cfg
        seed fuel ambient).groups.all
          (fun g => g.length == cfg.batch_size)) = true) := by
  constructor
  · rfl
  · intro tok eos permSeedAt shuffleWith names loaded cfg seed fuel ambient
    rw [List.all_eq_true]
    intro g hg
    rw [beq_iff_eq]
    unfold get_batch_iterator_run at hg
    split at hg
    · cases hg
    · exact epochLoop_groupsSized _ _ _ _ _ _ _ _ _ _ _ g hg

/-! ### Claim C3 -/

/-- The epoch loop's yielded batches and crash flag do not depend on the
ambient random state, and the ambient state is returned untouched. -/
theorem epochLoop_ambient_indep (tok : String → TokOut) (eos : Int)
    (permSeeds : Nat → Nat) (shuffleWith : Nat → List FlatItem → List FlatItem)
    (cfg : IterConfig) (n_ex : Option Int) (fuel : Nat) :
    ∀ (epoch_idx : Nat) (example_idx : Int) (flat : List FlatItem)
      (amb amb' : Nat),
    (epochLoop tok eos permSeeds shuffleWith cfg n_ex fuel epoch_idx
        example_idx flat amb).1 =
      (epochLoop tok eos permSeeds shuffleWith cfg n_ex fuel epoch_idx
        example_idx flat amb').1 ∧
    (epochLoop tok eos permSeeds shuffleWith cfg n_ex fuel epoch_idx
        example_idx flat amb).2.1 =
      (epochLoop tok eos permSeeds shuffleWith cfg n_ex fuel epoch_idx
        example_idx flat amb').2.1 ∧
    (epochLoop tok eos permSeeds shuffleWith cfg n_ex fuel epoch_idx
        example_idx flat amb).2.2 = amb := by
  induction fuel with
  | zero => intro e ex flat amb amb'; exact ⟨rfl, rfl, rfl⟩
  | succ fuel ih =>
      intro e ex flat amb amb'
      rw [epochLoop, epochLoop]
      split
      · exact ⟨rfl, rfl, rfl⟩
      · by_cases hs : cfg.shuffle = true
        · simp only [hs, if_true, withTemporarilySeededRandom]
          split
          · exact ⟨rfl, rfl, rfl⟩
          · obtain ⟨h1, h2, h3⟩ := ih (e + 1)
              (epochPass tok eos cfg.batch_size n_ex cfg.max_length
                cfg.max_prompt_length cfg.sft_mode
                (shuffleWith (permSeeds e) flat) ex).example_idx
              (shuffleWith (permSeeds e) flat) amb amb'
            exact ⟨by rw [h1], by rw [h2], by rw [h3]⟩
        · simp only [hs, Bool.false_eq_true, if_false]
          split
          · exact ⟨rfl, rfl, rfl⟩
          · obtain ⟨h1, h2, h3⟩ := ih (e + 1)
              (epochPass tok eos cfg.batch_size n_ex cfg.max_length
                cfg.max_prompt_length cfg.sft_mode flat ex).example_idx
              flat amb amb'
            exact ⟨by rw [h1], by rw [h2], by rw [h3]⟩

/-- C3: two independent runs with the same seed, corpus and configuration
(including `shuffle = true`) — differing only in the ambient random state of
the process — yield the same sequence of collated batches, identical in
contents and order; moreover the run restores the ambient random state it
started with (the per-epoch shuffle seeds are pre-generated once from the
caller's seed inside one scoped block, and each reshuffle runs under a
freshly scoped instance of that seed). -/
theorem c3_same_seed_same_batches (tok : String → TokOut)
    (eos pad : Int) (permSeedAt : Nat → Nat → Nat)
    (shuffleWith : Nat → List FlatItem → List FlatItem) (names : List String)
    (loaded : String → PyData) (cfg : IterConfig) (seed fuel : Nat)
    (amb amb' : Nat) :
    get_batch_iterator_batches tok eos pad permSeedAt shuffleWith names loaded
        cfg seed fuel amb =
      get_batch_iterator_batches tok eos pad permSeedAt shuffleWith names
        loaded cfg seed fuel amb' ∧
    (get_batch_iterator_run tok eos permSeedAt shuffleWith names loaded cfg
        seed fuel amb).ambient = amb := by
  unfold get_batch_iterator_batches get_batch_iterator_run
  split
  · exact ⟨rfl, rfl⟩
  · dsimp only [withTemporarilySeededRandom]
    obtain ⟨h1, h2, h3⟩ := epochLoop_ambient_indep tok eos
      (fun i => permSeedAt seed i) shuffleWith cfg
      (resolve_n_examples (build_flat names loaded).length cfg.n_examples
        cfg.d_examples) fuel 0 0 (build_flat names loaded) amb amb'
    exact ⟨by rw [h1], h3⟩

/-! ### Claim C9 -/

/-- The invariant of §8: both indices of every preference pair are valid
indices into the thread's `responses`. -/
def pairsBounded (t : PyThread) : Prop :=
  ∀ p ∈ threadPairs t, p.1 < (threadResponses t).length ∧
    p.2 < (threadResponses t).length

/-- Every thread of the dataset satisfies `pairsBounded`. -/
def dataBounded (d : PyData) : Prop := ∀ pt ∈ d, pairsBounded pt.2

theorem threadPairs_set_pairs (t : PyThread) (l : List (Nat × Nat)) :
    threadPairs (dictSet t "pairs" (.vPairs l)) = l := by
  unfold threadPairs
  rw [dictGet_set_eq]

theorem threadPairs_set_other (t : PyThread) (k : String) (v : PyVal)
    (h : ("pairs" : String) ≠ k) :
    threadPairs (dictSet t k v) = threadPairs t := by
  unfold threadPairs
  rw [dictGet_set_ne _ _ _ _ h]

theorem threadPairs_del_other (t : PyThread) (k : String)
    (h : ("pairs" : String) ≠ k) :
    threadPairs (dictDel t k) = threadPairs t := by
  unfold threadPairs
  rw [dictGet_del_ne _ _ _ h]

theorem threadResponses_set_responses (t : PyThread) (l : List String) :
    threadResponses (dictSet t "responses" (.vStrList l)) = l := by
  unfold threadResponses
  rw [dictGet_set_eq]

theorem threadResponses_set_other (t : PyThread) (k : String) (v : PyVal)
    (h : ("responses" : String) ≠ k) :
    threadResponses (dictSet t k v) = threadResponses t := by
  unfold threadResponses
  rw [dictGet_set_ne _ _ _ _ h]

theorem threadResponses_del_other (t : PyThread) (k : String)
    (h : ("responses" : String) ≠ k) :
    threadResponses (dictDel t k) = threadResponses t := by
  unfold threadResponses
  rw [dictGet_del_ne _ _ _ h]

/-- A successful dict lookup exhibits a member. -/
theorem mem_of_dictGet (m : List (String × α)) (k : String) (v : α)
    (h : dictGet m k = some v) : (k, v) ∈ m := by
  induction m with
  | nil => simp [dictGet] at h
  | cons hd tl ih =>
      obtain ⟨k0, v0⟩ := hd
      rw [dictGet_cons] at h
      by_cases hk : (k == k0) = true
      · rw [if_pos hk] at h
        injection h with h
        rw [beq_iff_eq.mp hk, h]
        exact List.mem_cons_self _ _
      · rw [if_neg hk] at h
        exact List.mem_cons_of_mem _ (ih h)

/-- C9, StackExchange adapter: every emitted pair is in range. -/
theorem get_se_bounded (rows : List SERow) : dataBounded (get_se rows) := by
  unfold get_se
  refine foldl_preserves _ _ _ (fun pt hpt => absurd hpt (List.not_mem_nil pt))
    ?_
  intro data row _ hdata pt hpt
  dsimp only at hpt
  rcases mem_dictSet hpt with heq | hmem
  · subst heq
    intro p hp
    rw [threadPairs_set_other _ _ _ (by decide),
      threadPairs_set_pairs] at hp
    rw [threadResponses_set_other _ _ _ (by decide),
      threadResponses_set_other _ _ _ (by decide),
      threadResponses_set_responses]
    have hb := rankedPairs_bounds _ p hp
    rw [List.length_map] at hb
    rw [List.length_map]
    exact hb
  · exact hdata pt hmem

/-- C9, SHP adapter: every emitted pair is in range. -/
theorem get_shp_bounded (rows : List SHPRow) : dataBounded (get_shp rows) := by
  unfold get_shp
  have hphase1 : dataBounded (rows.foldl (fun data row =>
      let prompt := "\n\nHuman: " ++ row.history ++ "\n\nAssistant:"
      let responses := [" " ++ row.human_ref_A, " " ++ row.human_ref_B]
      let scores := [row.score_A, row.score_B]
      let n_responses :=
        if (dictGet data prompt).isSome then
          (threadResponses ((dictGet data prompt).getD [])).length
        else 0
      let score_ratio := max (row.score_A / row.score_B)
        (row.score_B / row.score_A)
      if score_ratio < 2 then data
      else
        let inner := (dictGet data prompt).getD []
        let pair :=
          if row.labels == 1 then (n_responses, n_responses + 1)
          else (n_responses + 1, n_responses)
        let inner := dictSet inner "pairs"
          (.vPairs (threadPairs inner ++ [pair]))
        let inner := dictSet inner "responses"
          (.vStrList (threadResponses inner ++ responses))
        let inner := dictSet inner "scores"
          (.vScores (threadScores inner ++ scores))
        dictSet data prompt inner) []) := by
    refine foldl_preserves _ _ _
      (fun pt hpt => absurd hpt (List.not_mem_nil pt)) ?_
    intro data row _ hdata
    dsimp only
    split
    · exact hdata
    · intro pt hpt
      rcases mem_dictSet hpt with heq | hmem
      · subst heq
        have hinner : pairsBounded
            ((dictGet data
              ("\n\nHuman: " ++ row.history ++ "\n\nAssistant:")).getD []) := by
          cases hd : dictGet data
              ("\n\nHuman: " ++ row.history ++ "\n\nAssistant:") with
          | none => intro p hp; simp [threadPairs, dictGet] at hp
          | some inner0 =>
              exact hdata (_, inner0) (mem_of_dictGet _ _ _ hd)
        have hn : (if (dictGet data
              ("\n\nHuman: " ++ row.history ++ "\n\nAssistant:")).isSome then
                (threadResponses ((dictGet data
                  ("\n\nHuman: " ++ row.history ++
                    "\n\nAssistant:")).getD [])).length
              else 0) =
            (threadResponses ((dictGet data
              ("\n\nHuman: " ++ row.history ++
                "\n\nAssistant:")).getD [])).length := by
          cases hd : dictGet data
              ("\n\nHuman: " ++ row.history ++ "\n\nAssistant:") with
          | none => simp [threadResponses, dictGet]
          | some inner0 => simp
        intro p hp
        rw [threadPairs_set_other _ _ _ (by decide),
          threadPairs_set_other _ _ _ (by decide),
          threadPairs_set_pairs] at hp
        rw [threadResponses_set_other _ _ _ (by decide),
          threadResponses_set_responses,
          threadResponses_set_other _ _ _ (by decide), List.length_append]
        rw [hn] at hp
        rcases List.mem_append.mp hp with hold | hnew
        · have := hinner p hold
          omega
        · rw [List.mem_singleton.mp hnew]
          split <;> exact ⟨by simp, by simp⟩
      · exact hdata pt hmem
  intro pt hpt
  rcases List.mem_map.mp hpt with ⟨pt0, hpt0, heq⟩
  subst heq
  intro p hp
  dsimp only at hp ⊢
  rw [threadPairs_del_other _ _ (by decide),
    threadPairs_set_other _ _ _ (by decide)] at hp
  rw [threadResponses_del_other _ _ (by decide),
    threadResponses_set_other _ _ _ (by decide)]
  exact hphase1 pt0 hpt0 p hp

/-- A monadic fold over `Option` preserves any invariant its step
preserves. -/
theorem foldlM_option_preserves {α β : Type _} {P : β → Prop}
    (f : β → α → Option β) (l : List α) :
    ∀ (b : β), P b → (∀ b' a r, a ∈ l → P b' → f b' a = some r → P r) →
    ∀ res, l.foldlM f b = some res → P res := by
  induction l with
  | nil =>
      intro b hb _ res h
      rw [List.foldlM_nil] at h
      injection h with h
      exact h ▸ hb
  | cons a l ih =>
      intro b hb hf res h
      rw [List.foldlM_cons] at h
      cases hfa : f b a with
      | none => rw [hfa] at h; simp at h
      | some b' =>
          rw [hfa] at h
          simp only [Option.pure_def, Option.bind_eq_bind,
            Option.some_bind] at h
          exact ih b' (hf b a b' (List.mem_cons_self _ _) hb hfa)
            (fun b'' a' r ha' => hf b'' a' r (List.mem_cons_of_mem _ ha'))
            res h

/-- C9, Anthropic HH adapter: every emitted pair is in range. -/
theorem get_hh_bounded (rows : List HHRow) (data : PyData)
    (h : get_hh rows = some data) : dataBounded data := by
  unfold get_hh at h
  refine foldlM_option_preserves _ rows []
    (fun pt hpt => absurd hpt (List.not_mem_nil pt)) ?_ data h
  intro data' row res _ hdata hstep
  cases hsplit : split_prompt_and_responses row with
  | none => rw [hsplit] at hstep; simp at hstep
  | some triple =>
      obtain ⟨prompt, chosen, rejected⟩ := triple
      rw [hsplit] at hstep
      simp only [Option.pure_def, Option.bind_eq_bind, Option.some_bind,
        Option.some.injEq] at hstep
      subst hstep
      intro pt hpt
      rcases mem_dictSet hpt with heq | hmem
      · subst heq
        have hinner : pairsBounded ((dictGet data' prompt).getD []) := by
          cases hd : dictGet data' prompt with
          | none => intro p hp; simp [threadPairs, dictGet] at hp
          | some inner0 => exact hdata (_, inner0) (mem_of_dictGet _ _ _ hd)
        intro p hp
        rw [threadPairs_set_other _ _ _ (by decide),
          threadPairs_set_other _ _ _ (by decide),
          threadPairs_set_pairs] at hp
        rw [threadResponses_set_other _ _ _ (by decide),
          threadResponses_set_responses,
          threadResponses_set_other _ _ _ (by decide), List.length_append]
        rcases List.mem_append.mp hp with hold | hnew
        · have := hinner p hold
          omega
        · rw [List.mem_singleton.mp hnew]
          exact ⟨by simp, by simp⟩
      · exact hdata pt hmem

/-- C9, OASST extractor: every thread `emit_thread` builds has its pairs in
range. -/
theorem emit_thread_bounded (conversation : String) (replies : List OANode) :
    pairsBounded (emit_thread conversation replies) := by
  have hpr : (("pairs" : String) == "responses") = false := by decide
  have hpp : (("pairs" : String) == "pairs") = true := by decide
  have hrr : (("responses" : String) == "responses") = true := by decide
  intro p hp
  by_cases hlen : (replies.length == 1) = true
  · have h1 : replies.length = 1 := beq_iff_eq.mp hlen
    simp only [emit_thread, hlen, if_true, threadPairs, threadResponses,
      dictGet_cons, hpr, hpp, hrr, Bool.false_eq_true, if_false] at hp ⊢
    rcases List.mem_append.mp hp with hold | hnew
    · have hb := rankedPairs_bounds _ p hold
      rw [List.length_map] at hb
      simp only [List.length_append, List.length_map, List.length_singleton]
      omega
    · rw [List.mem_singleton.mp hnew]
      simp only [List.length_append, List.length_map, List.length_singleton]
      omega
  · simp only [emit_thread, hlen, Bool.false_eq_true, if_false, threadPairs,
      threadResponses, dictGet_cons, hpr, hpp, hrr, if_true] at hp ⊢
    have hb := rankedPairs_bounds _ p hp
    rw [List.length_map] at hb
    rw [List.length_map]
    exact hb

/-- C9, OASST extractor: `fill_threads` only ever inserts `emit_thread`
results, so it preserves `dataBounded`. -/
theorem fill_threads_bounded (fuel : Nat) :
    ∀ (node : OANode) (threads : PyData) (conv : String),
    dataBounded threads → dataBounded (fill_threads fuel node threads conv) := by
  induction fuel with
  | zero => intro node threads conv h; exact h
  | succ fuel ih =>
      intro node threads conv h
      rw [fill_threads]
      dsimp only
      split
      · split
        · exact foldl_preserves _ _ _ h
            (fun acc reply _ hacc => ih reply acc _ hacc)
        · refine foldl_preserves _ _ _ ?_ ?_
          · split
            · intro pt hpt
              rcases mem_dictSet hpt with heq | hmem
              · rw [heq]
                exact emit_thread_bounded _ _
              · exact h pt hmem
            · exact h
          · intro acc reply _ hacc
            split
            · exact ih reply acc _ hacc
            · exact hacc
      · exact h

/-- C9, OASST adapter: the full extraction over the root forest. -/
theorem get_oa_bounded (fuel : Nat) (roots : List OANode) :
    dataBounded (get_oa fuel roots) := by
  unfold get_oa
  exact foldl_preserves _ _ _ (fun pt hpt => absurd hpt (List.not_mem_nil pt))
    (fun acc root _ hacc => fill_threads_bounded fuel root acc "" hacc)

/-- C9: for every thread produced by any of the four adapters and every
`(i, j)` in its `pairs` field, both indices are valid indices into
`responses`. -/
theorem c9_all_adapters_pairs_in_range :
    (∀ rows : List SERow, dataBounded (get_se rows)) ∧
    (∀ rows : List SHPRow, dataBounded (get_shp rows)) ∧
    (∀ (rows : List HHRow) (data : PyData), get_hh rows = some data →
      dataBounded data) ∧
    (∀ (fuel : Nat) (roots : List OANode), dataBounded (get_oa fuel roots)) :=
  ⟨get_se_bounded, get_shp_bounded, get_hh_bounded, get_oa_bounded⟩

/-- A concrete StackExchange row with two answers. -/
def c9SeRow : SERow := ⟨"q", [⟨"a0", 2⟩, ⟨"a1", 1⟩]⟩

/-- C9 witness: the pair `(0, 1)` of the thread built from `c9SeRow` is in
range. -/
theorem c9_pairs_in_range_witness :
    ((0 : Nat), (1 : Nat)).1 <
      (threadResponses ((get_se [c9SeRow]).headD ("", [])).2).length ∧
    ((0 : Nat), (1 : Nat)).2 <
      (threadResponses ((get_se [c9SeRow]).headD ("", [])).2).length :=
  c9_all_adapters_pairs_in_range.1 [c9SeRow]
    ((get_se [c9SeRow]).headD ("", [])) (by decide) (0, 1) (by decide)

end PrefDatasets
